import Mathlib

/-!
Verification development for the aws-efs-csi-pv-provisioner core
(file aws-efs-csi-pv-provisioner.go).

Go strings are modelled as lists of characters (`Str`).  The Go standard
library functions the provisioner uses (`strings.Split`, `path.Clean`,
`filepath.Clean` on a slash-separated OS, `path.Join`, `strings.HasPrefix`,
`strings.ToLower`, `strconv.ParseBool`) are embedded below, followed by the
provisioner's own functions (`getDirectoryName`, `getLocalPath`,
`getRemotePath`, `getLocalPathToDelete`, `createVolume`, `Provision`,
`Delete`).  Filesystem effects are modelled by an explicit directory-entry
state and environmental failures by explicit oracle flags.
-/

abbrev Str := List Char

/-- Go strings.Split with a single-character separator: splits on every
occurrence of the separator; the empty string yields one empty part. -/
def splitOnChar (c : Char) : Str → List Str
  | [] => [[]]
  | a :: rest =>
    if a = c then [] :: splitOnChar c rest
    else
      match splitOnChar c rest with
      | [] => [[a]]
      | s :: ss => (a :: s) :: ss

theorem splitOnChar_ne_nil (c : Char) (s : Str) : splitOnChar c s ≠ [] := by
  cases s with
  | nil => simp [splitOnChar]
  | cons a rest =>
    simp only [splitOnChar]
    split
    · simp
    · split <;> simp

theorem splitOnChar_of_not_mem {c : Char} {s : Str} (h : c ∉ s) :
    splitOnChar c s = [s] := by
  induction s with
  | nil => rfl
  | cons a rest ih =>
    simp only [List.mem_cons, not_or] at h
    have hne : ¬ a = c := fun hac => h.1 hac.symm
    simp only [splitOnChar, if_neg hne, ih h.2]

theorem splitOnChar_append {c : Char} {a b : Str} (h : c ∉ a) :
    splitOnChar c (a ++ c :: b) = a :: splitOnChar c b := by
  induction a with
  | nil => simp [splitOnChar]
  | cons x xs ih =>
    simp only [List.mem_cons, not_or] at h
    have hne : ¬ x = c := fun hxc => h.1 hxc.symm
    simp only [List.cons_append, splitOnChar, if_neg hne]
    rw [show xs.append (c :: b) = xs ++ c :: b from rfl, ih h.2]

theorem splitOnChar_length (c : Char) (s : Str) :
    (splitOnChar c s).length = s.count c + 1 := by
  induction s with
  | nil => simp [splitOnChar]
  | cons a rest ih =>
    by_cases hac : a = c
    · subst hac
      simp [splitOnChar, List.count_cons, ih]
    · have hsplit := splitOnChar_ne_nil c rest
      simp only [splitOnChar, if_neg hac]
      cases hr : splitOnChar c rest with
      | nil => exact absurd hr hsplit
      | cons s ss =>
        simp only [List.length_cons]
        rw [hr] at ih
        simp only [List.length_cons] at ih
        simp [List.count_cons, hac, ← ih]

/-- Go strings.Join with separator the slash character (used inside
path.Join before cleaning). -/
def intercalateSlash : List Str → Str
  | [] => []
  | [s] => s
  | s :: rest => s ++ '/' :: intercalateSlash rest

/-- Whether a path begins with a slash (Go: path[0] == '/'). -/
def isRooted : Str → Bool
  | '/' :: _ => true
  | _ => false

/-- The element-processing loop of Go path.Clean, over the slash-separated
segments: empty and dot segments are dropped, a dotdot segment pops the
last kept segment when possible, is dropped at the root of a rooted path,
and is kept in an unrooted path that cannot backtrack further. -/
def cleanSegsAux (rooted : Bool) : List Str → List Str → List Str
  | [], acc => acc.reverse
  | seg :: rest, acc =>
    if seg = [] ∨ seg = ['.'] then cleanSegsAux rooted rest acc
    else if seg = ['.', '.'] then
      match acc with
      | [] =>
        if rooted then cleanSegsAux rooted rest []
        else cleanSegsAux rooted rest [['.', '.']]
      | top :: accTail =>
        if top = ['.', '.'] then cleanSegsAux rooted rest (['.', '.'] :: top :: accTail)
        else cleanSegsAux rooted rest accTail
    else cleanSegsAux rooted rest (seg :: acc)

/-- Go path.Clean (equal to filepath.Clean on a slash-separated OS):
resolves dot and dotdot segments and collapses repeated slashes. -/
def pathClean (s : Str) : Str :=
  if s = [] then ['.']
  else
    let segs := cleanSegsAux (isRooted s) (splitOnChar '/' s) []
    if segs = [] then (if isRooted s then ['/'] else ['.'])
    else (if isRooted s then ['/'] else []) ++ intercalateSlash segs

/-- Go path.Join: starting from the first non-empty element, join the
remaining elements with slashes and clean the result; all-empty input
yields the empty string. -/
def pathJoin : List Str → Str
  | [] => []
  | e :: rest => if e = [] then pathJoin rest else pathClean (intercalateSlash (e :: rest))

example : pathClean "/a/b/../c".data = "/a/c".data := by decide
example : pathClean "/persistentvolumes/..".data = "/".data := by decide
example : pathClean "/persistentvolumes/../".data = "/".data := by decide
example : pathClean "/persistentvolumes".data = "/persistentvolumes".data := by decide
example : pathClean "a/../..".data = "..".data := by decide
example : pathClean "".data = ".".data := by decide
example : pathClean "//a///b//".data = "/a/b".data := by decide
example : pathClean "/../a".data = "/a".data := by decide
example : pathJoin ["a".data, "".data, "b".data] = "a/b".data := by decide
example : pathJoin ["/efs".data, "/".data, "/persistentvolumes/x".data]
    = "/efs/persistentvolumes/x".data := by decide

instance exceptDecEq {ε α : Type} [DecidableEq ε] [DecidableEq α] :
    DecidableEq (Except ε α) := fun x y =>
  match x, y with
  | .error a, .error b =>
    if h : a = b then .isTrue (h ▸ rfl) else .isFalse (fun he => h (Except.error.inj he))
  | .error _, .ok _ => .isFalse (fun he => Except.noConfusion he)
  | .ok _, .error _ => .isFalse (fun he => Except.noConfusion he)
  | .ok a, .ok b =>
    if h : a = b then .isTrue (h ▸ rfl) else .isFalse (fun he => h (Except.ok.inj he))

/-- Go strings.HasPrefix, via the boolean list prefix test. -/
def hasPfx (s p : Str) : Bool := List.isPrefixOf p s

/-- The CSI driver name constant efsCsiDriverName from the source. -/
def efsCsiDriverName : Str := "efs.csi.aws.com".data

/-- The configuration fields of the efsProvisioner struct that the core
functions read (the allocator is modelled by oracles at the call sites). -/
structure EfsProvisioner where
  fileSystemID : Str
  mountPoint : Str
  subPath : Str
deriving DecidableEq

/-- The provisioner configured with the deployment defaults of main
(mountpoint /efs, subpath /persistentvolumes) and the test-suite file
system ID fs-123456. -/
def defaultProvisioner : EfsProvisioner :=
  { fileSystemID := "fs-123456".data
    mountPoint := "/efs".data
    subPath := "/persistentvolumes".data }

/-- The fields of controller.ProvisionOptions that the source reads:
the selector presence on the claim, the storage-class name, parameters and
mount options, and the identity triple used for the directory name. -/
structure ProvisionOptions where
  hasSelector : Bool
  scName : Str
  params : List (Str × Str)
  mountOptions : Option (List Str)
  pvcNs : Str
  pvcName : Str
  pvName : Str
deriving DecidableEq

/-- Helper building the options record for a given identity triple with no
selector and no parameters. -/
def mkOpts (ns cn pv : Str) : ProvisionOptions :=
  { hasSelector := false, scName := [], params := [], mountOptions := none
    pvcNs := ns, pvcName := cn, pvName := pv }

/-- getDirectoryName: options.PVC.Namespace + "-" + options.PVC.Name +
"-" + options.PVName. -/
def getDirectoryName (opts : ProvisionOptions) : Str :=
  opts.pvcNs ++ '-' :: (opts.pvcName ++ '-' :: opts.pvName)

/-- getLocalPath: path.Join(p.mountPoint, "/", p.subPath, "/",
p.getDirectoryName(options)). -/
def getLocalPath (p : EfsProvisioner) (opts : ProvisionOptions) : Str :=
  pathJoin [p.mountPoint, ['/'], p.subPath, ['/'], getDirectoryName opts]

/-- getRemotePath: path.Join("/", p.subPath, "/",
p.getDirectoryName(options)). -/
def getRemotePath (p : EfsProvisioner) (opts : ProvisionOptions) : Str :=
  pathJoin [['/'], p.subPath, ['/'], getDirectoryName opts]

/-- The volume handle written into the provisioned volume:
fmt.Sprintf("%s:%s", p.fileSystemID, p.getRemotePath(options)). -/
def volumeHandleOf (p : EfsProvisioner) (opts : ProvisionOptions) : Str :=
  p.fileSystemID ++ ':' :: getRemotePath p opts

/-- The error outcomes of getLocalPathToDelete, one per return site. -/
inductive DeleteError where
  | driverMismatch
  | invalidHandleFormat
  | filesystemMismatch
  | invalidSubpath
deriving DecidableEq

/-- getLocalPathToDelete: checks the CSI driver name, splits the volume
handle on every colon requiring exactly two parts, compares the file
system ID, cleans the second part and requires the cleaned path to have
the rooted subpath plus a trailing slash as a proper prefix, and finally
returns path.Join(p.mountPoint, "/", parts[1]) built from the RAW second
part (not the cleaned one), exactly as the source does. -/
def getLocalPathToDelete (p : EfsProvisioner) (driver volumeHandle : Str) :
    Except DeleteError Str :=
  if driver ≠ efsCsiDriverName then .error .driverMismatch
  else
    let parts := splitOnChar ':' volumeHandle
    if parts.length ≠ 2 then .error .invalidHandleFormat
    else
      if parts.getD 0 [] ≠ p.fileSystemID then .error .filesystemMismatch
      else
        let sub := pathClean (parts.getD 1 [])
        let pfx := pathJoin [['/'], p.subPath] ++ ['/']
        if ¬ hasPfx sub pfx ∨ sub = pfx then .error .invalidSubpath
        else .ok (pathJoin [p.mountPoint, ['/'], parts.getD 1 []])

example : getLocalPathToDelete defaultProvisioner "efs.something".data "fs-123456".data
    = .error .driverMismatch := by decide
example : getLocalPathToDelete defaultProvisioner efsCsiDriverName "fs-12345".data
    = .error .invalidHandleFormat := by decide
example : getLocalPathToDelete defaultProvisioner efsCsiDriverName "fs-123456:".data
    = .error .invalidSubpath := by decide
example : getLocalPathToDelete defaultProvisioner efsCsiDriverName "fs-123456:/".data
    = .error .invalidSubpath := by decide
example : getLocalPathToDelete defaultProvisioner efsCsiDriverName
    "fs-123456:/persistentvolumes".data = .error .invalidSubpath := by decide
example : getLocalPathToDelete defaultProvisioner efsCsiDriverName
    "fs-123456:/persistentvolumes/".data = .error .invalidSubpath := by decide
example : getLocalPathToDelete defaultProvisioner efsCsiDriverName
    "fs-123456:/persistentvolumes/..".data = .error .invalidSubpath := by decide
example : getLocalPathToDelete defaultProvisioner efsCsiDriverName
    "fs-123456:/persistentvolumes/../".data = .error .invalidSubpath := by decide
example : getLocalPathToDelete defaultProvisioner efsCsiDriverName
    "fs-123456:/persistentvolumes/something".data
    = .ok "/efs/persistentvolumes/something".data := by decide
example : getLocalPathToDelete { defaultProvisioner with fileSystemID := "fs-13".data }
    efsCsiDriverName "fs-123456:/persistentvolumes/something".data
    = .error .filesystemMismatch := by decide
example : getLocalPathToDelete defaultProvisioner efsCsiDriverName
    "fs-123456:/persistentvolumes/../x".data = .error .invalidSubpath := by decide
example : getLocalPathToDelete defaultProvisioner efsCsiDriverName
    "fs-123456:/../persistentvolumes/bar".data
    = .ok "/persistentvolumes/bar".data := by decide

example : getLocalPathToDelete { defaultProvisioner with mountPoint := "./efs".data }
    efsCsiDriverName "fs-123456:/persistentvolumes/something".data
    = .ok "efs/persistentvolumes/something".data := by decide

/-- C1: the claim that every path returned by getLocalPathToDelete lies
strictly inside the storage root fails on the code: the handle
fs-123456:/../persistentvolumes/bar passes the prefix check (its cleaned
second part is /persistentvolumes/bar) but the code joins the RAW second
part with the mount point, so the returned path /persistentvolumes/bar
lies outside the local storage root /efs/persistentvolumes/ (indeed
outside the /efs mount altogether). -/
theorem getLocalPathToDelete_escape_bug :
    getLocalPathToDelete defaultProvisioner efsCsiDriverName
        "fs-123456:/../persistentvolumes/bar".data
      = .ok "/persistentvolumes/bar".data
    ∧ hasPfx "/persistentvolumes/bar".data
        (pathJoin [defaultProvisioner.mountPoint, ['/'], defaultProvisioner.subPath] ++ ['/'])
      = false
    ∧ pathClean "/../persistentvolumes/bar".data = "/persistentvolumes/bar".data := by
  decide

/-- C3 counterexample: two requests with distinct volume names (c-d versus
d) whose directory names collide, because the dash-concatenation is
ambiguous. -/
theorem getDirectoryName_collision :
    getDirectoryName (mkOpts "a".data "b".data "c-d".data)
      = getDirectoryName (mkOpts "a".data "b-c".data "d".data)
    ∧ "c-d".data ≠ "d".data := by decide

/-- C3 (amended): getDirectoryName is injective across requests whose
volume names are distinct and of equal length: the directory name ends in
the volume name, so equal directory names with equal-length volume-name
suffixes force equal volume names. -/
theorem getDirectoryName_inj_of_eq_len (o1 o2 : ProvisionOptions)
    (hpv : o1.pvName ≠ o2.pvName) (hlen : o1.pvName.length = o2.pvName.length) :
    getDirectoryName o1 ≠ getDirectoryName o2 := by
  intro he
  apply hpv
  unfold getDirectoryName at he
  have h1 : ∀ (a b pv : Str), a ++ '-' :: (b ++ '-' :: pv) = (a ++ '-' :: b ++ ['-']) ++ pv := by
    intro a b pv
    simp
  rw [h1, h1] at he
  have hlen' : (o1.pvcNs ++ '-' :: o1.pvcName ++ ['-']).length
      = (o2.pvcNs ++ '-' :: o2.pvcName ++ ['-']).length := by
    have htot := congrArg List.length he
    simp only [List.length_append, List.length_cons, List.length_singleton] at htot ⊢
    omega
  exact List.append_inj_right he hlen'

theorem getDirectoryName_inj_witness :
    getDirectoryName (mkOpts "my-ns".data "my-pvc".data "pvc-1".data)
      ≠ getDirectoryName (mkOpts "my-ns".data "my-pvc".data "pvc-2".data) :=
  getDirectoryName_inj_of_eq_len _ _ (by decide) (by decide)

/-- C4 counterexample: a handle containing a colon (indeed two colons) on
which decoding fails with the invalid-handle-format error, refuting the
claim that decoding never fails with that error once at least one colon is
present: the code splits on every colon and requires exactly two parts. -/
theorem colon_handle_invalidHandleFormat :
    getLocalPathToDelete defaultProvisioner efsCsiDriverName
        "fs-123456:/persistentvolumes/a:b".data
      = .error .invalidHandleFormat
    ∧ ':' ∈ "fs-123456:/persistentvolumes/a:b".data := by decide

/-- C4 (amended): getLocalPathToDelete fails with the
invalid-handle-format error exactly when the handle does not contain
exactly one colon; with exactly one colon the parts are the substrings
before and after it and every other outcome is possible but not that
error. -/
theorem invalidHandleFormat_iff_count (p : EfsProvisioner) (handle : Str) :
    getLocalPathToDelete p efsCsiDriverName handle = .error .invalidHandleFormat
      ↔ handle.count ':' ≠ 1 := by
  have hlen : (splitOnChar ':' handle).length = handle.count ':' + 1 :=
    splitOnChar_length ':' handle
  constructor
  · intro h
    intro hcount
    have hlen2 : ¬ (splitOnChar ':' handle).length ≠ 2 := by omega
    simp only [getLocalPathToDelete, if_neg (by simp : ¬ efsCsiDriverName ≠ efsCsiDriverName),
      if_neg hlen2] at h
    split at h
    · exact DeleteError.noConfusion (Except.error.inj h)
    · split at h
      · exact DeleteError.noConfusion (Except.error.inj h)
      · exact Except.noConfusion h
  · intro hcount
    have hlen2 : (splitOnChar ':' handle).length ≠ 2 := by omega
    simp only [getLocalPathToDelete, if_neg (by simp : ¬ efsCsiDriverName ≠ efsCsiDriverName),
      if_pos hlen2]

theorem invalidHandleFormat_iff_count_witness :
    getLocalPathToDelete defaultProvisioner efsCsiDriverName "fs-123456".data
      = .error .invalidHandleFormat :=
  (invalidHandleFormat_iff_count defaultProvisioner "fs-123456".data).mpr (by decide)

theorem cleanSegsAux_push (r : Bool) {seg : Str} (h0 : seg ≠ []) (h1 : seg ≠ ['.'])
    (h2 : seg ≠ ['.', '.']) (rest acc : List Str) :
    cleanSegsAux r (seg :: rest) acc = cleanSegsAux r rest (seg :: acc) := by
  simp only [cleanSegsAux]
  rw [if_neg (by simp [h0, h1]), if_neg h2]

theorem hasPfx_append (a t : Str) : hasPfx (a ++ t) a = true := by
  simp [hasPfx, List.isPrefixOf_iff_prefix]

theorem append_ne_left {d : Str} (a : Str) (h : d ≠ []) : a ++ d ≠ a := by
  intro he
  apply h
  have hl := congrArg List.length he
  rw [List.length_append] at hl
  exact List.length_eq_zero.mp (by omega)

/-- Computation of getRemotePath for the default configuration with a
symbolic slash-free directory name. -/
theorem remotePath_form (d : Str) (hs : '/' ∉ d) (h0 : d ≠ []) (h1 : d ≠ ['.'])
    (h2 : d ≠ ['.', '.']) :
    pathJoin [['/'], "/persistentvolumes".data, ['/'], d]
      = '/' :: ("persistentvolumes".data ++ '/' :: d) := by
  have hseg : cleanSegsAux true (splitOnChar '/'
      ('/' :: '/' :: '/' :: ("persistentvolumes".data ++ '/' :: '/' :: '/' :: d))) []
      = ["persistentvolumes".data, d] := by
    rw [show splitOnChar '/'
          ('/' :: '/' :: '/' :: ("persistentvolumes".data ++ '/' :: '/' :: '/' :: d))
        = [] :: [] :: [] :: "persistentvolumes".data :: [] :: [] :: splitOnChar '/' d from rfl,
      splitOnChar_of_not_mem hs]
    show cleanSegsAux true [d] ["persistentvolumes".data] = _
    rw [cleanSegsAux_push true h0 h1 h2]
    rfl
  show pathClean ('/' :: '/' :: '/' :: ("persistentvolumes".data ++ '/' :: '/' :: '/' :: d)) = _
  simp only [pathClean]
  rw [show isRooted ('/' :: '/' :: '/' :: ("persistentvolumes".data ++ '/' :: '/' :: '/' :: d))
      = true from rfl, hseg]
  simp [intercalateSlash]

/-- The cleaned remote path of a volume is itself (it is already clean)
when the directory name is slash-free and not a dot segment. -/
theorem cleanFixed_form (d : Str) (hs : '/' ∉ d) (h0 : d ≠ []) (h1 : d ≠ ['.'])
    (h2 : d ≠ ['.', '.']) :
    pathClean ('/' :: ("persistentvolumes".data ++ '/' :: d))
      = '/' :: ("persistentvolumes".data ++ '/' :: d) := by
  have hseg : cleanSegsAux true (splitOnChar '/'
      ('/' :: ("persistentvolumes".data ++ '/' :: d))) []
      = ["persistentvolumes".data, d] := by
    rw [show splitOnChar '/' ('/' :: ("persistentvolumes".data ++ '/' :: d))
        = [] :: "persistentvolumes".data :: splitOnChar '/' d from rfl,
      splitOnChar_of_not_mem hs]
    show cleanSegsAux true [d] ["persistentvolumes".data] = _
    rw [cleanSegsAux_push true h0 h1 h2]
    rfl
  simp only [pathClean]
  rw [show isRooted ('/' :: ("persistentvolumes".data ++ '/' :: d)) = true from rfl, hseg]
  simp [intercalateSlash]

/-- Computation of the join performed by getLocalPathToDelete on a clean
remote path for the default configuration. -/
theorem localJoin_form (d : Str) (hs : '/' ∉ d) (h0 : d ≠ []) (h1 : d ≠ ['.'])
    (h2 : d ≠ ['.', '.']) :
    pathJoin ["/efs".data, ['/'], '/' :: ("persistentvolumes".data ++ '/' :: d)]
      = '/' :: ("efs".data ++ '/' :: ("persistentvolumes".data ++ '/' :: d)) := by
  have hseg : cleanSegsAux true (splitOnChar '/'
      ('/' :: 'e' :: 'f' :: 's' :: '/' :: '/' :: '/' :: '/' ::
        ("persistentvolumes".data ++ '/' :: d))) []
      = ["efs".data, "persistentvolumes".data, d] := by
    rw [show splitOnChar '/'
          ('/' :: 'e' :: 'f' :: 's' :: '/' :: '/' :: '/' :: '/' ::
            ("persistentvolumes".data ++ '/' :: d))
        = [] :: "efs".data :: [] :: [] :: [] :: "persistentvolumes".data ::
            splitOnChar '/' d from rfl,
      splitOnChar_of_not_mem hs]
    show cleanSegsAux true [d] ["persistentvolumes".data, "efs".data] = _
    rw [cleanSegsAux_push true h0 h1 h2]
    rfl
  show pathClean ('/' :: 'e' :: 'f' :: 's' :: '/' :: '/' :: '/' :: '/' ::
      ("persistentvolumes".data ++ '/' :: d)) = _
  simp only [pathClean]
  rw [show isRooted ('/' :: 'e' :: 'f' :: 's' :: '/' :: '/' :: '/' :: '/' ::
      ("persistentvolumes".data ++ '/' :: d)) = true from rfl, hseg]
  simp [intercalateSlash]

/-- Computation of getLocalPath for the default configuration with a
symbolic slash-free directory name. -/
theorem localPath_form (d : Str) (hs : '/' ∉ d) (h0 : d ≠ []) (h1 : d ≠ ['.'])
    (h2 : d ≠ ['.', '.']) :
    pathJoin ["/efs".data, ['/'], "/persistentvolumes".data, ['/'], d]
      = '/' :: ("efs".data ++ '/' :: ("persistentvolumes".data ++ '/' :: d)) := by
  have hseg : cleanSegsAux true (splitOnChar '/'
      ('/' :: 'e' :: 'f' :: 's' :: '/' :: '/' :: '/' :: '/' ::
        ("persistentvolumes".data ++ '/' :: '/' :: '/' :: d))) []
      = ["efs".data, "persistentvolumes".data, d] := by
    rw [show splitOnChar '/'
          ('/' :: 'e' :: 'f' :: 's' :: '/' :: '/' :: '/' :: '/' ::
            ("persistentvolumes".data ++ '/' :: '/' :: '/' :: d))
        = [] :: "efs".data :: [] :: [] :: [] :: "persistentvolumes".data :: [] :: [] ::
            splitOnChar '/' d from rfl,
      splitOnChar_of_not_mem hs]
    show cleanSegsAux true [d] ["persistentvolumes".data, "efs".data] = _
    rw [cleanSegsAux_push true h0 h1 h2]
    rfl
  show pathClean ('/' :: 'e' :: 'f' :: 's' :: '/' :: '/' :: '/' :: '/' ::
      ("persistentvolumes".data ++ '/' :: '/' :: '/' :: d)) = _
  simp only [pathClean]
  rw [show isRooted ('/' :: 'e' :: 'f' :: 's' :: '/' :: '/' :: '/' :: '/' ::
      ("persistentvolumes".data ++ '/' :: '/' :: '/' :: d)) = true from rfl, hseg]
  simp [intercalateSlash]

/-- C2: the round-trip law. Decoding the handle built from the file system
ID and the remote path of a volume, under the same configuration, succeeds
and returns exactly the local path getLocalPath computes for the same
request, for every request whose namespace, claim name and volume name are
free of colon and slash characters (as Kubernetes object names are). -/
theorem decode_encode_round_trip (opts : ProvisionOptions)
    (hns1 : ':' ∉ opts.pvcNs) (hns2 : '/' ∉ opts.pvcNs)
    (hcn1 : ':' ∉ opts.pvcName) (hcn2 : '/' ∉ opts.pvcName)
    (hpv1 : ':' ∉ opts.pvName) (hpv2 : '/' ∉ opts.pvName) :
    getLocalPathToDelete defaultProvisioner efsCsiDriverName
        (volumeHandleOf defaultProvisioner opts)
      = .ok (getLocalPath defaultProvisioner opts) := by
  have hdash : '-' ∈ getDirectoryName opts := by
    unfold getDirectoryName
    simp
  have hd0 : getDirectoryName opts ≠ [] := by
    intro h
    rw [h] at hdash
    exact absurd hdash (by decide)
  have hd1 : getDirectoryName opts ≠ ['.'] := by
    intro h
    rw [h] at hdash
    exact absurd hdash (by decide)
  have hd2 : getDirectoryName opts ≠ ['.', '.'] := by
    intro h
    rw [h] at hdash
    exact absurd hdash (by decide)
  have hds : '/' ∉ getDirectoryName opts := by
    unfold getDirectoryName
    intro hm
    simp only [List.mem_append, List.mem_cons] at hm
    rcases hm with h | h | h | h | h
    · exact hns2 h
    · exact absurd h (by decide)
    · exact hcn2 h
    · exact absurd h (by decide)
    · exact hpv2 h
  have hdc : ':' ∉ getDirectoryName opts := by
    unfold getDirectoryName
    intro hm
    simp only [List.mem_append, List.mem_cons] at hm
    rcases hm with h | h | h | h | h
    · exact hns1 h
    · exact absurd h (by decide)
    · exact hcn1 h
    · exact absurd h (by decide)
    · exact hpv1 h
  have hremote : getRemotePath defaultProvisioner opts
      = '/' :: ("persistentvolumes".data ++ '/' :: getDirectoryName opts) :=
    remotePath_form (getDirectoryName opts) hds hd0 hd1 hd2
  have hrc : ':' ∉ '/' :: ("persistentvolumes".data ++ '/' :: getDirectoryName opts) := by
    intro hm
    simp only [List.mem_cons, List.mem_append] at hm
    rcases hm with h | h | h | h
    · exact absurd h (by decide)
    · exact absurd h (by decide)
    · exact absurd h (by decide)
    · exact hdc h
  have hsplit2 : splitOnChar ':' (volumeHandleOf defaultProvisioner opts)
      = ["fs-123456".data,
         '/' :: ("persistentvolumes".data ++ '/' :: getDirectoryName opts)] := by
    rw [show volumeHandleOf defaultProvisioner opts
        = "fs-123456".data ++ ':' :: getRemotePath defaultProvisioner opts from rfl, hremote,
      splitOnChar_append (by decide), splitOnChar_of_not_mem hrc]
  have hclean := cleanFixed_form (getDirectoryName opts) hds hd0 hd1 hd2
  have hbridge : ('/' :: ("persistentvolumes".data ++ '/' :: getDirectoryName opts) : Str)
      = "/persistentvolumes/".data ++ getDirectoryName opts := rfl
  have hpref : hasPfx ('/' :: ("persistentvolumes".data ++ '/' :: getDirectoryName opts))
      "/persistentvolumes/".data = true := by
    rw [hbridge]
    exact hasPfx_append _ _
  have hneq : ('/' :: ("persistentvolumes".data ++ '/' :: getDirectoryName opts) : Str)
      ≠ "/persistentvolumes/".data := by
    rw [hbridge]
    exact append_ne_left _ hd0
  have hlocal := localJoin_form (getDirectoryName opts) hds hd0 hd1 hd2
  have hlp := localPath_form (getDirectoryName opts) hds hd0 hd1 hd2
  have hfs : defaultProvisioner.fileSystemID = "fs-123456".data := rfl
  have hmp : defaultProvisioner.mountPoint = "/efs".data := rfl
  have hsp : defaultProvisioner.subPath = "/persistentvolumes".data := rfl
  have hpfxv : pathJoin [['/'], "/persistentvolumes".data] ++ ['/']
      = "/persistentvolumes/".data := by decide
  simp only [getLocalPathToDelete, hsplit2, getLocalPath, hfs, hmp, hsp, hpfxv,
    List.getD_cons_zero, List.getD_cons_succ, List.length_cons, List.length_nil,
    hclean, hpref, hneq, hlocal, hlp, ne_eq]
  simp [hlocal, hlp, hneq]

theorem decode_encode_round_trip_witness :
    getLocalPathToDelete defaultProvisioner efsCsiDriverName
        (volumeHandleOf defaultProvisioner
          (mkOpts "my-ns".data "my-pvc".data "pvc-123456".data))
      = .ok (getLocalPath defaultProvisioner
          (mkOpts "my-ns".data "my-pvc".data "pvc-123456".data)) :=
  decode_encode_round_trip _ (by decide) (by decide) (by decide) (by decide)
    (by decide) (by decide)

/-- A directory entry of the modelled filesystem: path, Go FileMode bits
(permission bits plus possibly the setgid bit), owner uid and gid. -/
structure DirEntry where
  path : Str
  mode : Nat
  uid : Nat
  gid : Nat
deriving DecidableEq

/-- The modelled filesystem: the list of existing directory entries. -/
abbrev FsState := List DirEntry

/-- Go os.ModeSetgid, bit 23 of an os.FileMode value. -/
def goModeSetgid : Nat := 0x800000

/-- Whether an entry exists at the path. -/
def dirExists (st : FsState) (p : Str) : Bool := st.any (fun e => e.path == p)

/-- The entry at the path, when present. -/
def lookupDir (st : FsState) (p : Str) : Option DirEntry :=
  st.find? (fun e => e.path == p)

/-- Mode bits actually applied by directory creation under a process
umask: the requested bits with the umask bits removed. -/
def applyUmask (perm umask : Nat) : Nat := perm - Nat.land perm umask

/-- Go os.MkdirAll restricted to the target path: success without change
if the path already exists, otherwise a new directory owned by the calling
process is created with its mode weakened by the process umask
(intermediate parent directories are abstracted away). -/
def mkdirAll (st : FsState) (p : Str) (perm umask uid pgid : Nat) : FsState :=
  if dirExists st p then st else ⟨p, applyUmask perm umask, uid, pgid⟩ :: st

/-- Go os.Chmod: set the mode bits of the entry at the path exactly
(umask does not apply to chmod). -/
def chmodFs (st : FsState) (p : Str) (mode : Nat) : FsState :=
  st.map (fun e => if e.path == p then { e with mode := mode } else e)

/-- Go os.Chown: set owner uid and gid of the entry at the path. -/
def chownFs (st : FsState) (p : Str) (uid gid : Nat) : FsState :=
  st.map (fun e => if e.path == p then { e with uid := uid, gid := gid } else e)

/-- Whether q is the path p itself or lies below it. -/
def isUnder (p q : Str) : Bool := q == p || hasPfx q (p ++ ['/'])

/-- Go os.RemoveAll on the modelled state: remove the entry at the path
and every entry below it; by its documented contract it reports success
when nothing exists at the path. -/
def removeAllFs (st : FsState) (p : Str) : FsState :=
  st.filter (fun e => ! isUnder p e.path)

/-- Environmental failure flags for the filesystem calls createVolume
makes. -/
structure FsOracle where
  mkdirAllFails : Bool
  chmodFails : Bool
  chownFails : Bool
deriving DecidableEq

/-- The step of createVolume at which an error was returned. -/
inductive CreateStep where
  | mkdirAllFailed
  | chmodFailed
  | chownFailed
deriving DecidableEq

/-- createVolume: perm is 0777 without a GID and 0771 plus setgid with
one; MkdirAll creates the tree, Chmod re-applies perm because of the
umask, and with a GID present Chown sets ownership to (os.Getuid(), gid);
a Chmod or Chown failure removes the created tree recursively before the
error is returned. -/
def createVolume (o : FsOracle) (umask uid pgid : Nat) (st : FsState) (path : Str)
    (gid : Option Nat) : FsState × Option CreateStep :=
  let perm := match gid with
    | none => 0o777
    | some _ => 0o771 ||| goModeSetgid
  if o.mkdirAllFails then (st, some .mkdirAllFailed)
  else
    let st1 := mkdirAll st path perm umask uid pgid
    if o.chmodFails then (removeAllFs st1 path, some .chmodFailed)
    else
      let st2 := chmodFs st1 path perm
      match gid with
      | none => (st2, none)
      | some g =>
        if o.chownFails then (removeAllFs st2 path, some .chownFailed)
        else (chownFs st2 path uid g, none)

theorem removeAllFs_all (st : FsState) (p : Str) :
    (removeAllFs st p).all (fun e => ! isUnder p e.path) = true := by
  rw [List.all_eq_true]
  intro e he
  exact (List.mem_filter.mp he).2

/-- C5: if createVolume returns an error from the chmod (permission) step
or the chown (ownership) step, both of which run after the directory was
created, the returned state has no entry at or below the target path: the
created tree was removed before the error was returned. -/
theorem createVolume_rollback (o : FsOracle) (umask uid pgid : Nat) (st : FsState)
    (path : Str) (gid : Option Nat) (st' : FsState) (step : CreateStep)
    (hrun : createVolume o umask uid pgid st path gid = (st', some step))
    (hstep : step ≠ CreateStep.mkdirAllFailed) :
    st'.all (fun e => ! isUnder path e.path) = true := by
  obtain ⟨m, c, w⟩ := o
  cases m with
  | true =>
    simp [createVolume] at hrun
    exact absurd hrun.2.symm hstep
  | false =>
    cases c with
    | true =>
      simp [createVolume] at hrun
      rw [← hrun.1]
      exact removeAllFs_all _ _
    | false =>
      cases gid with
      | none => simp [createVolume] at hrun
      | some g =>
        cases w with
        | true =>
          simp [createVolume] at hrun
          rw [← hrun.1]
          exact removeAllFs_all _ _
        | false => simp [createVolume] at hrun

theorem createVolume_rollback_witness :
    ((createVolume ⟨false, true, false⟩ 18 1000 1000
        [⟨"/efs/persistentvolumes".data, 493, 0, 0⟩] "/efs/persistentvolumes/d".data
        (some 2000)).1).all
      (fun e => ! isUnder "/efs/persistentvolumes/d".data e.path) = true :=
  createVolume_rollback ⟨false, true, false⟩ 18 1000 1000
    [⟨"/efs/persistentvolumes".data, 493, 0, 0⟩] "/efs/persistentvolumes/d".data
    (some 2000) _ CreateStep.chmodFailed rfl (by decide)

/-- C6: on success with a fresh target path, createVolume leaves the
directory with mode 0777 when no GID is given, and with mode 0771 plus
the setgid bit when a GID is given; ownership is the creating process's
uid (unchanged by the chown call, which passes os.Getuid()) and the group
becomes the allocated GID when given, the creation-time group otherwise.
The final mode never depends on the process umask, because the mode is
re-applied by chmod after creation. -/
theorem createVolume_success_entry (o : FsOracle) (umask uid pgid : Nat) (st : FsState)
    (path : Str) (gid : Option Nat) (st' : FsState)
    (hfresh : dirExists st path = false)
    (hrun : createVolume o umask uid pgid st path gid = (st', none)) :
    lookupDir st' path = some ⟨path,
      (match gid with | none => 0o777 | some _ => 0o771 ||| goModeSetgid),
      uid, gid.getD pgid⟩ := by
  obtain ⟨m, c, w⟩ := o
  cases m with
  | true => simp [createVolume] at hrun
  | false =>
    cases c with
    | true => simp [createVolume] at hrun
    | false =>
      cases gid with
      | none =>
        simp only [createVolume] at hrun
        simp at hrun
        subst hrun
        simp [mkdirAll, hfresh, chmodFs, lookupDir, List.find?]
      | some g =>
        cases w with
        | true => simp [createVolume] at hrun
        | false =>
          simp only [createVolume] at hrun
          simp at hrun
          subst hrun
          simp [mkdirAll, hfresh, chmodFs, chownFs, lookupDir, List.find?]

theorem createVolume_success_entry_witness :
    lookupDir (createVolume ⟨false, false, false⟩ 18 1000 1000 []
        "/efs/persistentvolumes/d".data (some 2000)).1 "/efs/persistentvolumes/d".data
      = some ⟨"/efs/persistentvolumes/d".data, 0o771 ||| goModeSetgid, 1000, 2000⟩ :=
  createVolume_success_entry ⟨false, false, false⟩ 18 1000 1000 []
    "/efs/persistentvolumes/d".data (some 2000) _ (by decide) rfl

/-- C7: removing a path removes exactly the entries at or below it: no
entry at or below the path survives, every other entry (in particular the
parent storage root, which is never at or below a path of the form
root followed by slash and a suffix) survives, and when nothing exists at
or below the path the state is unchanged, so deletion of an absent path
is a successful no-op. -/
theorem remove_spec (st : FsState) (path : Str) :
    ((removeAllFs st path).all (fun e => ! isUnder path e.path) = true)
    ∧ (∀ e, e ∈ st → isUnder path e.path = false → e ∈ removeAllFs st path)
    ∧ (∀ root sfx, path = root ++ '/' :: sfx → isUnder path root = false)
    ∧ (st.all (fun e => ! isUnder path e.path) = true → removeAllFs st path = st) := by
  refine ⟨removeAllFs_all st path, ?_, ?_, ?_⟩
  · intro e he hf
    exact List.mem_filter.mpr ⟨he, by simp [hf]⟩
  · intro root sfx hp
    subst hp
    rw [isUnder]
    have h1 : (root == root ++ '/' :: sfx) = false := by
      rw [beq_eq_false_iff_ne]
      intro h
      have hl := congrArg List.length h
      simp only [List.length_append, List.length_cons] at hl
      omega
    have h2 : hasPfx root ((root ++ '/' :: sfx) ++ ['/']) = false := by
      rw [hasPfx]
      by_contra hb
      rw [Bool.not_eq_false] at hb
      have hle := (List.isPrefixOf_iff_prefix.mp hb).length_le
      simp only [List.length_append, List.length_cons, List.length_singleton,
        List.length_nil] at hle
      omega
    rw [h1, h2]
    rfl
  · intro hall
    rw [removeAllFs]
    apply List.filter_eq_self.mpr
    intro a ha
    exact List.all_eq_true.mp hall a ha

theorem remove_spec_witness :
    ((removeAllFs [⟨"/efs/persistentvolumes".data, 511, 0, 0⟩,
        ⟨"/efs/persistentvolumes/d".data, 511, 0, 0⟩] "/efs/persistentvolumes/d".data).all
      (fun e => ! isUnder "/efs/persistentvolumes/d".data e.path) = true)
    ∧ ⟨"/efs/persistentvolumes".data, 511, 0, 0⟩ ∈
        removeAllFs [⟨"/efs/persistentvolumes".data, 511, 0, 0⟩,
          ⟨"/efs/persistentvolumes/d".data, 511, 0, 0⟩] "/efs/persistentvolumes/d".data
    ∧ removeAllFs [⟨"/efs/persistentvolumes".data, 511, 0, 0⟩] "/nonexistent".data
        = [⟨"/efs/persistentvolumes".data, 511, 0, 0⟩] :=
  ⟨(remove_spec _ _).1,
   (remove_spec _ _).2.1 _ (by decide) (by decide),
   (remove_spec _ _).2.2.2 (by decide)⟩

/-- Failure flags for the collaborators Delete calls: the allocator's
Release and os.RemoveAll. -/
structure DeleteOracle where
  releaseFails : Bool
  removeAllFails : Bool
deriving DecidableEq

/-- Observable events of a Delete run, in order. -/
inductive DeleteEvent where
  | releaseAttempted
  | removedPath (p : Str)
deriving DecidableEq

/-- The outcome of Delete, one constructor per return site. -/
inductive DeleteResult where
  | releaseError
  | decodeError (e : DeleteError)
  | removeError
  | ok
deriving DecidableEq

/-- Delete: first releases the GID via the allocator, returning its error
if that fails; then decodes and validates the handle with
getLocalPathToDelete, returning the decode error if that fails; then
removes the tree at the decoded local path, returning the removal error
if that fails. The event list records the release attempt and any
removal; on a removal failure the state is abstracted as unchanged. -/
def Delete (p : EfsProvisioner) (o : DeleteOracle) (st : FsState)
    (driver handle : Str) : FsState × List DeleteEvent × DeleteResult :=
  if o.releaseFails then (st, [.releaseAttempted], .releaseError)
  else
    match getLocalPathToDelete p driver handle with
    | .error e => (st, [.releaseAttempted], .decodeError e)
    | .ok path =>
      if o.removeAllFails then (st, [.releaseAttempted], .removeError)
      else (removeAllFs st path, [.releaseAttempted, .removedPath path], .ok)

/-- C8: in Delete the GID release runs first: the first recorded event of
every run, even with a malformed or mismatched handle, is the release
attempt; if the release fails Delete returns that error with the state
unchanged and nothing removed (decoding is never reached); and if the
release succeeds but decoding fails, Delete returns the decode error with
the state unchanged and no removal event. -/
theorem delete_release_first (p : EfsProvisioner) (o : DeleteOracle) (st : FsState)
    (driver handle : Str) :
    ((Delete p o st driver handle).2.1.head? = some DeleteEvent.releaseAttempted)
    ∧ (o.releaseFails = true → Delete p o st driver handle
        = (st, [DeleteEvent.releaseAttempted], DeleteResult.releaseError))
    ∧ (∀ e, o.releaseFails = false → getLocalPathToDelete p driver handle = .error e →
        Delete p o st driver handle
          = (st, [DeleteEvent.releaseAttempted], DeleteResult.decodeError e)) := by
  refine ⟨?_, ?_, ?_⟩
  · rw [Delete]
    split
    · rfl
    · split
      · rfl
      · split
        · rfl
        · rfl
  · intro hr
    simp [Delete, hr]
  · intro e hr hd
    simp [Delete, hr, hd]

theorem delete_release_first_witness :
    Delete defaultProvisioner ⟨false, false⟩ [] efsCsiDriverName "garbage".data
      = ([], [DeleteEvent.releaseAttempted],
          DeleteResult.decodeError DeleteError.invalidHandleFormat) :=
  (delete_release_first defaultProvisioner ⟨false, false⟩ [] efsCsiDriverName
      "garbage".data).2.2 DeleteError.invalidHandleFormat rfl (by decide)

/-- Go strings.ToLower, character by character (the parameter keys are
ASCII). -/
def strToLower (s : Str) : Str := s.map Char.toLower

/-- Go strconv.ParseBool: accepts exactly twelve strings. -/
def parseBool (s : Str) : Option Bool :=
  if s = "1".data ∨ s = "t".data ∨ s = "T".data ∨ s = "TRUE".data ∨ s = "true".data
      ∨ s = "True".data then some true
  else if s = "0".data ∨ s = "f".data ∨ s = "F".data ∨ s = "FALSE".data
      ∨ s = "false".data ∨ s = "False".data then some false
  else none

/-- The parameter loop of Provision: keys gidmin and gidmax
(case-insensitively) are left for the allocator, gidallocate is parsed as
a boolean with the last occurrence winning, an unparseable gidallocate
value aborts with that key and value, and unknown keys are ignored. -/
def processParams : List (Str × Str) → Bool → Except (Str × Str) Bool
  | [], acc => .ok acc
  | (k, v) :: rest, acc =>
    if strToLower k = "gidmin".data ∨ strToLower k = "gidmax".data then
      processParams rest acc
    else if strToLower k = "gidallocate".data then
      match parseBool v with
      | none => .error (k, v)
      | some b => processParams rest b
    else processParams rest acc

/-- The collaborators of Provision: the allocator's AllocateNext outcome
and the process environment of the filesystem calls. -/
structure ProvOracle where
  allocateNextFails : Bool
  allocatedGid : Nat
  fs : FsOracle
  umask : Nat
  uid : Nat
  pgid : Nat
deriving DecidableEq

/-- The error outcomes of Provision, one per return site. -/
inductive ProvisionError where
  | selectorNotSupported
  | invalidParameterValue (k v : Str)
  | allocateNextError
  | createError (s : CreateStep)
deriving DecidableEq

/-- Observable collaborator calls of a Provision run: AllocateNext with
the storage-class parameters it can read from the options it receives. -/
inductive ProvEvent where
  | allocateNextCalled (params : List (Str × Str))
deriving DecidableEq

/-- The fields of the returned PersistentVolume that the claims
reference: name, the hard-coded storage class name, the CSI driver and
volume handle, mount options (defaulted to empty when absent) and the GID
annotation (present exactly when a GID was allocated).  Fields copied
verbatim from the request (capacity, access modes, reclaim policy) are
omitted. -/
structure PersistentVolume where
  name : Str
  storageClassName : Str
  csiDriver : Str
  volumeHandle : Str
  mountOptions : List Str
  gidAnnot : Option Nat
deriving DecidableEq

/-- The tail of Provision after the gid pointer is settled: createVolume
at getLocalPath aborts on its error, otherwise the volume descriptor is
built with the hard-coded storage class name efs-sc, the CSI driver name
and the encoded volume handle, copying the mount options and recording
the GID annotation exactly when a GID was allocated. -/
def provisionCreate (p : EfsProvisioner) (o : ProvOracle) (st : FsState)
    (opts : ProvisionOptions) (evs : List ProvEvent) (gid : Option Nat) :
    FsState × List ProvEvent × Except ProvisionError PersistentVolume :=
  match createVolume o.fs o.umask o.uid o.pgid st (getLocalPath p opts) gid with
  | (st1, some step) => (st1, evs, .error (.createError step))
  | (st1, none) =>
    (st1, evs, .ok
      { name := opts.pvName
        storageClassName := "efs-sc".data
        csiDriver := efsCsiDriverName
        volumeHandle := volumeHandleOf p opts
        mountOptions := opts.mountOptions.getD []
        gidAnnot := gid })

/-- Provision: rejects claims carrying a selector; scans the
storage-class parameters with gidAllocate defaulting to true; when
gidAllocate resolves to true calls AllocateNext with the unmodified
options (recorded as an event), aborting on its error; then continues
with provisionCreate. -/
def Provision (p : EfsProvisioner) (o : ProvOracle) (st : FsState)
    (opts : ProvisionOptions) :
    FsState × List ProvEvent × Except ProvisionError PersistentVolume :=
  if opts.hasSelector then (st, [], .error .selectorNotSupported)
  else
    match processParams opts.params true with
    | .error kv => (st, [], .error (.invalidParameterValue kv.1 kv.2))
    | .ok gidAllocate =>
      if gidAllocate then
        if o.allocateNextFails then
          (st, [.allocateNextCalled opts.params], .error .allocateNextError)
        else
          provisionCreate p o st opts [.allocateNextCalled opts.params]
            (some o.allocatedGid)
      else provisionCreate p o st opts [] none

theorem processParams_default (ps : List (Str × Str)) (b : Bool)
    (h : ∀ kv, kv ∈ ps → strToLower kv.1 ≠ "gidallocate".data) :
    processParams ps b = .ok b := by
  induction ps generalizing b with
  | nil => rfl
  | cons kv rest ih =>
    obtain ⟨k, v⟩ := kv
    have hk : strToLower k ≠ "gidallocate".data := h (k, v) (List.mem_cons_self _ _)
    have htail : ∀ kv, kv ∈ rest → strToLower kv.1 ≠ "gidallocate".data :=
      fun kv hkv => h kv (List.mem_cons_of_mem _ hkv)
    by_cases h1 : strToLower k = "gidmin".data ∨ strToLower k = "gidmax".data
    · simp only [processParams]
      rw [if_pos h1]
      exact ih b htail
    · simp only [processParams]
      rw [if_neg h1, if_neg hk]
      exact ih b htail

theorem processParams_error (ps : List (Str × Str)) (b : Bool) (k v : Str)
    (h : processParams ps b = .error (k, v)) :
    parseBool v = none ∧ strToLower k = "gidallocate".data := by
  induction ps generalizing b with
  | nil => exact absurd h (by simp [processParams])
  | cons kv rest ih =>
    obtain ⟨k', v'⟩ := kv
    by_cases h1 : strToLower k' = "gidmin".data ∨ strToLower k' = "gidmax".data
    · simp only [processParams] at h
      rw [if_pos h1] at h
      exact ih b h
    · by_cases h2 : strToLower k' = "gidallocate".data
      · simp only [processParams] at h
        rw [if_neg h1, if_pos h2] at h
        cases hpb : parseBool v' with
        | none =>
          rw [hpb] at h
          have hkv := Except.error.inj h
          have hk : k' = k := congrArg Prod.fst hkv
          have hv : v' = v := congrArg Prod.snd hkv
          subst hk
          subst hv
          exact ⟨hpb, h2⟩
        | some b' =>
          rw [hpb] at h
          exact ih b' h
      · simp only [processParams] at h
        rw [if_neg h1, if_neg h2] at h
        exact ih b h

/-- C9: in Provision (with no selector, the supported case) the parameter
gidAllocate defaults to true when absent; AllocateNext is called, with
the storage-class parameters passed through untouched, exactly when the
parameter resolves to true; and an unrecognized boolean value makes
Provision fail with the invalid-parameter error before any GID is
allocated (no allocate event) and before any directory is created (state
unchanged). -/
theorem provision_gid_allocation (p : EfsProvisioner) (o : ProvOracle) (st : FsState)
    (opts : ProvisionOptions) (hsel : opts.hasSelector = false) :
    ((∀ kv, kv ∈ opts.params → strToLower kv.1 ≠ "gidallocate".data) →
        processParams opts.params true = .ok true)
    ∧ (∀ ga, processParams opts.params true = .ok ga →
        (Provision p o st opts).2.1
          = if ga then [ProvEvent.allocateNextCalled opts.params] else [])
    ∧ (∀ k v, processParams opts.params true = .error (k, v) →
        Provision p o st opts = (st, [], .error (.invalidParameterValue k v))
          ∧ parseBool v = none) := by
  refine ⟨fun h => processParams_default _ _ h, ?_, ?_⟩
  · intro ga hga
    cases ga with
    | false =>
      rcases hc : createVolume o.fs o.umask o.uid o.pgid st (getLocalPath p opts) none
        with ⟨st1, stepq⟩
      cases stepq <;> simp [Provision, provisionCreate, hsel, hga, hc]
    | true =>
      cases haf : o.allocateNextFails with
      | true => simp [Provision, hsel, hga, haf]
      | false =>
        rcases hc : createVolume o.fs o.umask o.uid o.pgid st (getLocalPath p opts)
          (some o.allocatedGid) with ⟨st1, stepq⟩
        cases stepq <;> simp [Provision, provisionCreate, hsel, hga, haf, hc]
  · intro k v hkv
    refine ⟨?_, (processParams_error _ _ _ _ hkv).1⟩
    simp [Provision, hsel, hkv]

theorem provision_gid_allocation_witness :
    Provision defaultProvisioner ⟨false, 2000, ⟨false, false, false⟩, 18, 1000, 1000⟩ []
        { mkOpts "a".data "b".data "c".data with
            params := [("gidallocate".data, "maybe".data)] }
      = ([], [], .error (.invalidParameterValue "gidallocate".data "maybe".data))
    ∧ parseBool "maybe".data = none :=
  (provision_gid_allocation defaultProvisioner
      ⟨false, 2000, ⟨false, false, false⟩, 18, 1000, 1000⟩ []
      { mkOpts "a".data "b".data "c".data with
          params := [("gidallocate".data, "maybe".data)] } rfl).2.2
    "gidallocate".data "maybe".data (by decide)

theorem provisionCreate_sc (p : EfsProvisioner) (o : ProvOracle) (st : FsState)
    (opts : ProvisionOptions) (evs0 : List ProvEvent) (gid : Option Nat)
    (st' : FsState) (evs : List ProvEvent) (pv : PersistentVolume)
    (hrun : provisionCreate p o st opts evs0 gid = (st', evs, .ok pv)) :
    pv.storageClassName = "efs-sc".data := by
  unfold provisionCreate at hrun
  rcases hc : createVolume o.fs o.umask o.uid o.pgid st (getLocalPath p opts) gid
    with ⟨st1, stepq⟩
  rw [hc] at hrun
  cases stepq with
  | some step => simp at hrun
  | none =>
    simp only [Prod.mk.injEq, Except.ok.injEq] at hrun
    rw [← hrun.2.2]

/-- C10: every successfully provisioned volume descriptor carries the
hard-coded storage class name efs-sc, regardless of the storage class
named in the request. -/
theorem provision_storage_class (p : EfsProvisioner) (o : ProvOracle) (st : FsState)
    (opts : ProvisionOptions) (st' : FsState) (evs : List ProvEvent)
    (pv : PersistentVolume)
    (hrun : Provision p o st opts = (st', evs, .ok pv)) :
    pv.storageClassName = "efs-sc".data := by
  unfold Provision at hrun
  split at hrun
  · simp at hrun
  · split at hrun
    · simp at hrun
    · split at hrun
      · split at hrun
        · simp at hrun
        · exact provisionCreate_sc _ _ _ _ _ _ _ _ _ hrun
      · exact provisionCreate_sc _ _ _ _ _ _ _ _ _ hrun

theorem provision_storage_class_witness :
    PersistentVolume.storageClassName
      ⟨"pvc-1".data, "efs-sc".data, efsCsiDriverName,
        "fs-123456:/persistentvolumes/my-ns-my-pvc-pvc-1".data, [], none⟩
      = "efs-sc".data :=
  provision_storage_class defaultProvisioner
    ⟨false, 2000, ⟨false, false, false⟩, 18, 1000, 1000⟩ []
    { mkOpts "my-ns".data "my-pvc".data "pvc-1".data with
        scName := "not-efs-sc".data, params := [("gidallocate".data, "false".data)] }
    [⟨"/efs/persistentvolumes/my-ns-my-pvc-pvc-1".data, 511, 1000, 1000⟩] []
    ⟨"pvc-1".data, "efs-sc".data, efsCsiDriverName,
      "fs-123456:/persistentvolumes/my-ns-my-pvc-pvc-1".data, [], none⟩
    (by decide)
